import Mathlib

/-!
Verification of the URL-import subsystem of the gf-tea-app repository.

JavaScript strings are shallowly embedded as `List Char`; `null`/`undefined`
results of DOM or parser operations are embedded as `Option`; the WHATWG URL
parser (the platform builtin `new URL`) is not repository code, so its outcome
is passed to the embedded validator explicitly as an `Option ParsedURL`
argument (`none` models the constructor throwing).
-/

/-- Embedding of the JavaScript substring test `s.includes(sub)`. -/
def jsIncludes (s sub : List Char) : Bool :=
  s.tails.any fun t => sub.isPrefixOf t

/-- Embedding of `String.prototype.trim` (whitespace characters at both ends
are removed; the inputs of interest use ASCII whitespace only). -/
def jsTrim (s : List Char) : List Char :=
  ((s.dropWhile Char.isWhitespace).reverse.dropWhile Char.isWhitespace).reverse

/-- Embedding of `hostname.replace(/^\[|\]$/g, '')` from `isPrivateIP`:
one leading `[` and one trailing `]` are removed when present. -/
def stripBrackets (h : List Char) : List Char :=
  let h1 := if ("[".toList).isPrefixOf h then h.drop 1 else h
  if ("]".toList).isSuffixOf h1 then h1.dropLast else h1

/-- The sixteen two-digit strings accepted by the regex alternation
`(1[6-9]|2[0-9]|3[01])` in the `172.16.0.0/12` pattern. -/
def seg172 : List String :=
  ["16", "17", "18", "19", "20", "21", "22", "23",
   "24", "25", "26", "27", "28", "29", "30", "31"]

/-- Embedding of the regex test `/^172\.(1[6-9]|2[0-9]|3[01])\./.test(hostname)`. -/
def matches172 (h : List Char) : Bool :=
  seg172.any fun d => (("172." ++ d ++ ".").toList).isPrefixOf h

/-- Embedding of the loop over `ipv4Patterns` in `isPrivateIP`
(`server/__tests__/urlValidation.test.ts`): the anchored regexes
`/^127\./`, `/^10\./`, `/^172\.(1[6-9]|2[0-9]|3[01])\./`, `/^192\.168\./`,
`/^169\.254\./` are string-prefix tests. -/
def ipv4PatternAny (h : List Char) : Bool :=
  ("127.".toList).isPrefixOf h || ("10.".toList).isPrefixOf h ||
  matches172 h || ("192.168.".toList).isPrefixOf h ||
  ("169.254.".toList).isPrefixOf h

/-- Embedding of `isPrivateIP` from `server/__tests__/urlValidation.test.ts`
(the same code appears in the api test file): literal localhost checks, then
the IPv4 prefix patterns, then the bracket-stripped IPv6 checks. -/
def isPrivateIP (hostname : List Char) : Bool :=
  if hostname = "localhost".toList ∨ hostname = "localhost.localdomain".toList then
    true
  else if ipv4PatternAny hostname then
    true
  else
    let ipv6Hostname := stripBrackets hostname
    ipv6Hostname = "::1".toList || ipv6Hostname = "::".toList ||
      ("fc".toList).isPrefixOf ipv6Hostname || ("fd".toList).isPrefixOf ipv6Hostname

/-- Result of `new URL(url)` as consumed by the validator: the `protocol`
(with trailing colon) and `hostname` properties. -/
structure ParsedURL where
  protocol : List Char
  hostname : List Char
deriving DecidableEq

/-- Shape of the value returned by `validateURLForSSRF`:
`{ valid: boolean; error?: string }`. -/
structure ValidationResult where
  valid : Bool
  error : Option (List Char)
deriving DecidableEq

/-- The JavaScript value handed to `validateURLForSSRF`: a string, or any
non-string value (`null`, `undefined`, a number, an object, ...), which the
guard `!url || typeof url !== 'string' || url.trim() === ''` rejects. -/
inductive JSInput where
  | str (s : List Char)
  | notStr
deriving DecidableEq

/-- Embedding of `validateURLForSSRF` from
`server/__tests__/urlValidation.test.ts`.  The `new URL(url)` call is a
platform builtin, not repository code, so its outcome is the explicit
argument `parsed?`; `none` models the constructor throwing, which the
source catches and maps to `Invalid URL format`. -/
def validateURLForSSRF (url : JSInput) (parsed? : Option ParsedURL) : ValidationResult :=
  match url with
  | .notStr => ⟨false, some "URL cannot be empty".toList⟩
  | .str s =>
    if s = [] ∨ jsTrim s = [] then
      ⟨false, some "URL cannot be empty".toList⟩
    else
      match parsed? with
      | none => ⟨false, some "Invalid URL format".toList⟩
      | some parsed =>
        if ¬ (parsed.protocol = "http:".toList ∨ parsed.protocol = "https:".toList) then
          ⟨false, some "Only HTTP/HTTPS URLs are allowed".toList⟩
        else if parsed.hostname = [] then
          ⟨false, some "Invalid URL format: missing hostname".toList⟩
        else if isPrivateIP parsed.hostname then
          ⟨false, some "Cannot scrape private/local URLs".toList⟩
        else
          ⟨true, none⟩

/-- Splits a hostname at the `.` separators (used only by the spec-side
description of the documented IPv4 ranges, below). -/
def splitOnDots : List Char → List (List Char)
  | [] => [[]]
  | c :: rest =>
    if c = '.' then [] :: splitOnDots rest
    else
      match splitOnDots rest with
      | s :: ss => (c :: s) :: ss
      | [] => [[c]]

/-- Rejoins dot-separated segments; inverse of `splitOnDots`. -/
def joinDots : List (List Char) → List Char
  | [] => []
  | [s] => s
  | s :: ss => s ++ '.' :: joinDots ss

/-- Reads a dotted-decimal segment: the octet value whose canonical decimal
rendering is exactly this segment, if the segment is one. -/
def ipv4SegVal (seg : List Char) : Option Nat :=
  (List.range 256).find? fun n => (Nat.repr n).toList == seg

/-- Reads a hostname as a dotted-quad IPv4 address in canonical decimal form. -/
def parseIPv4 (h : List Char) : Option (Nat × Nat × Nat × Nat) :=
  match splitOnDots h with
  | [s1, s2, s3, s4] =>
    (ipv4SegVal s1).bind fun a =>
      (ipv4SegVal s2).bind fun b =>
        (ipv4SegVal s3).bind fun c =>
          (ipv4SegVal s4).map fun d => (a, b, c, d)
  | _ => none

/-- Membership of an IPv4 address in the documented private/loopback/link-local
ranges: `127.0.0.0/8`, `10.0.0.0/8`, `172.16.0.0`–`172.31.255.255`,
`192.168.0.0/16`, `169.254.0.0/16`. -/
def inPrivateRange : Nat × Nat × Nat × Nat → Bool
  | (a, b, _, _) =>
    a == 127 || a == 10 || (a == 172 && decide (16 ≤ b) && decide (b ≤ 31)) ||
    (a == 192 && b == 168) || (a == 169 && b == 254)

/-- Follows the spec's words (its documented reserved/private address space):
the literals `localhost` and `localhost.localdomain`; IPv4 addresses in the
documented CIDR ranges; and IPv6 `::1`, `::`, and `fc`/`fd`-prefixed literals,
with or without brackets.  This spec-side set is compared against the code's
string predicate `isPrivateIP`. -/
def specPrivateHostname (h : List Char) : Bool :=
  h == "localhost".toList || h == "localhost.localdomain".toList ||
  (match parseIPv4 h with
   | some q => inPrivateRange q
   | none => false) ||
  (let h6 := stripBrackets h
   h6 == "::1".toList || h6 == "::".toList ||
   ("fc".toList).isPrefixOf h6 || ("fd".toList).isPrefixOf h6)

/-- The five error strings that `validateURLForSSRF` can produce. -/
def validatorErrors : List (List Char) :=
  ["URL cannot be empty".toList,
   "Only HTTP/HTTPS URLs are allowed".toList,
   "Invalid URL format: missing hostname".toList,
   "Cannot scrape private/local URLs".toList,
   "Invalid URL format".toList]

/-- Scanner for the global regex `/(\d+)s/g` over the page's visible text
(`index.ts`, steep-times extraction): the accumulator holds the digit run
currently being read; a maximal nonempty digit run immediately followed by
`s` yields one match (the digits plus the `s`), and scanning resumes after
that `s`.  This reproduces the left-to-right, non-overlapping semantics of
`String.prototype.match` with the `g` flag for this pattern. -/
def scanSteepAux : List Char → List Char → List (List Char)
  | _, [] => []
  | ds, c :: rest =>
    if c.isDigit then scanSteepAux (ds ++ [c]) rest
    else if c = 's' ∧ ds ≠ [] then (ds ++ ['s']) :: scanSteepAux [] rest
    else scanSteepAux [] rest

/-- All matches of `/(\d+)s/g` in the given text, in order. -/
def scanSteepMatches (text : List Char) : List (List Char) :=
  scanSteepAux [] text

/-- Embedding of `m.replace('s', '')` — removes the first occurrence of `s`. -/
def removeFirstS : List Char → List Char
  | [] => []
  | c :: rest => if c = 's' then rest else c :: removeFirstS rest

/-- Decimal value of a digit string, as produced by `parseInt` on the digits
captured by `(\d+)` (always a nonempty all-digit string, so never NaN). -/
def digitsVal (l : List Char) : Nat :=
  l.foldl (fun acc c => acc * 10 + (c.toNat - 48)) 0

/-- Embedding of the steep-times extraction in `index.ts` (`page.evaluate`):
match `/(\d+)s/g` against `document.body.innerText`; if more than two matches
were found, parse each match (dropping its `s`) and keep, in order, the
values that pass the sanity check `num < 600`; otherwise return nothing. -/
def extractSteepTimes (bodyText : List Char) : List Nat :=
  let ms := scanSteepMatches bodyText
  if 2 < ms.length then
    ((ms.map fun m => digitsVal (removeFirstS m)).filter fun n => n < 600)
  else []

/-- One element matched by `document.querySelectorAll('.info-title')`:
its own `textContent` and its parent's `textContent` (the source reads
`el.parentElement?.textContent || ''`, so a missing parent is the empty
string). -/
structure InfoTitle where
  text : List Char
  parentText : List Char
deriving DecidableEq

/-- The enumerated tea types, in source order:
`['Green', 'Black', 'PuEr', 'Yellow', 'White', 'Oolong']`. -/
def validTypes : List (List Char) :=
  ["Green".toList, "Black".toList, "PuEr".toList,
   "Yellow".toList, "White".toList, "Oolong".toList]

/-- Inner loop of the Categories scan: `validTypes.forEach(t => {
if (containerText.includes(t)) type = t })` — the last containing type in
source order overwrites earlier ones. -/
def catScanStep (containerText ty : List Char) : List Char :=
  validTypes.foldl (fun acc t => if jsIncludes containerText t then t else acc) ty

/-- The `.info-title` loop of the type extraction: for each info-title whose
text contains `Categories`, run the inner type scan on its parent text. -/
def categoriesScan (infoTitles : List InfoTitle) : List Char :=
  infoTitles.foldl
    (fun ty el =>
      if jsIncludes el.text "Categories".toList then catScanStep el.parentText ty
      else ty)
    []

/-- The body-text fallback of the type extraction: the first enumerated type
(in source order) contained in both the body text and the extracted name
(`for...of` with `break`). -/
def typeFallback (bodyText name : List Char) : List Char :=
  match validTypes.find? (fun t => jsIncludes bodyText t && jsIncludes name t) with
  | some t => t
  | none => []

/-- Embedding of the type extraction in `index.ts` (`page.evaluate`): the
Categories info-block scan, then — only when it produced no type — the
body-text/name co-occurrence fallback. -/
def extractType (infoTitles : List InfoTitle) (bodyText name : List Char) : List Char :=
  let ty := categoriesScan infoTitles
  if ty = [] then typeFallback bodyText name else ty

/-- The document state handed to `page.evaluate`: the query results the
extraction reads.  `none` models a missing element / attribute. -/
structure PageDoc where
  h1PageTitle : Option (List Char)
  h1 : Option (List Char)
  ogImageContent : Option (List Char)
  galleryImageSrc : Option (List Char)
  infoTitles : List InfoTitle
  bodyInnerText : List Char
deriving DecidableEq

/-- The record returned by `page.evaluate`:
`{ name, type, image, steepTimes }`. -/
structure TeaCandidate where
  name : List Char
  type : List Char
  image : List Char
  steepTimes : List Nat
deriving DecidableEq

/-- JavaScript `a || b` on strings: `b` when `a` is empty, else `a`. -/
def orEmpty (a b : List Char) : List Char :=
  if a = [] then b else a

/-- Embedding of the whole `page.evaluate` extraction in `index.ts`:
name from `h1.page-title` falling back to `h1`; image from the `og:image`
meta content falling back to the gallery placeholder `src` attribute; type
and steep times as above. -/
def extractTeaData (doc : PageDoc) : TeaCandidate :=
  let name := orEmpty (jsTrim (doc.h1PageTitle.getD []))
    (orEmpty (jsTrim (doc.h1.getD [])) [])
  { name := name
    type := extractType doc.infoTitles doc.bodyInnerText name
    image := orEmpty (doc.ogImageContent.getD []) (doc.galleryImageSrc.getD [])
    steepTimes := extractSteepTimes doc.bodyInnerText }

/-- Outcome of `puppeteer.launch(...)`: a browser process handle (abstracted
as a numeric process identity) or a rejected promise. -/
inductive LaunchOutcome where
  | launched (b : Nat)
  | launchFailed
deriving DecidableEq

/-- Embedding of `getBrowser` from `index.ts`: the state is the module-level
`browserInstance` (`none` models `null`).  A stored handle is returned
unchanged; otherwise a launch is attempted — on success the handle is stored
and returned, on failure the `await` throws before the assignment, so the
shared state stays unset and the caller gets the error (`none` result). -/
def getBrowser (browserInstance : Option Nat) (launch : LaunchOutcome) :
    Option Nat × Option Nat :=
  match browserInstance with
  | some b => (some b, some b)
  | none =>
    match launch with
    | .launched b => (some b, some b)
    | .launchFailed => (none, none)

/-- Embedding of the `disconnected` observer that `getBrowser` installs:
it sets `browserInstance = null`, discarding the stored handle. -/
def browserDisconnected (st : Option Nat) : Option Nat :=
  match st with
  | _ => none

/-- Runs a sequence of `getBrowser` calls, threading the shared state and
collecting each call's result. -/
def runAcquires (st : Option Nat) : List LaunchOutcome → Option Nat × List (Option Nat)
  | [] => (st, [])
  | l :: ls =>
    let r := getBrowser st l
    let rest := runAcquires r.1 ls
    (rest.1, r.2 :: rest.2)

/-- Network-relevant actions taken by the import route. -/
inductive NetEffect where
  | launchAttempt
  | navigate
deriving DecidableEq

/-- Response sent by the import route handler. -/
inductive ImportResponse where
  | clientError (msg : List Char)
  | serverError (msg : List Char)
  | ok (data : TeaCandidate)
deriving DecidableEq

/-- Embedding of the scraping phase of `app.post('/api/teas/import')` in
`index.ts`, after browser acquisition: `newPageOk` says whether
`browser.newPage()` and the interception setup succeeded; `navTimedOut` says
whether `page.goto` threw — the source wraps the navigation in try/catch and
only logs, so extraction runs over the reached document state either way;
a failure before evaluation hits the outer catch and answers
500 `Failed to scrape URL`. -/
def scrapePage (newPageOk navTimedOut : Bool) (doc : PageDoc) : ImportResponse :=
  if newPageOk then
    match navTimedOut with
    | _ => .ok (extractTeaData doc)
  else .serverError "Failed to scrape URL".toList

/-- Modelled from the spec: the wiring of the SSRF guard in front of
the import route.  The current server entry point `tea-app/server/index.ts` —
which the repository README documents as having built-in SSRF protection on
`POST /api/teas/import`, and whose test suite states that the validation
functions are defined in `index.ts` and used by the API endpoints — is not
among the provided sources; only an earlier snapshot of the handler (without
the guard) is.  Following the spec, the route validates first and on
rejection responds with the guard's reason verbatim, taking no network
action; on acceptance it acquires the shared browser (`getBrowser`, from the
provided source) and runs the scraping phase from the provided handler code.
The result is the final shared browser state, the response, and the list of
network actions performed. -/
def importRoute (url : JSInput) (parsed? : Option ParsedURL)
    (browserInstance : Option Nat) (launch : LaunchOutcome)
    (newPageOk navTimedOut : Bool) (doc : PageDoc) :
    Option Nat × ImportResponse × List NetEffect :=
  let v := validateURLForSSRF url parsed?
  if v.valid then
    match getBrowser browserInstance launch with
    | (st, some _) =>
      (st, scrapePage newPageOk navTimedOut doc,
        if newPageOk then [.launchAttempt, .navigate] else [.launchAttempt])
    | (st, none) =>
      (st, .serverError "Failed to scrape URL".toList, [.launchAttempt])
  else
    (browserInstance, .clientError (v.error.getD []), [])

theorem splitOnDots_ne_nil (l : List Char) : splitOnDots l ≠ [] := by
  cases l with
  | nil => simp [splitOnDots]
  | cons c rest =>
    simp only [splitOnDots]
    split
    · simp
    · split <;> simp

theorem joinDots_splitOnDots (l : List Char) : joinDots (splitOnDots l) = l := by
  induction l with
  | nil => rfl
  | cons c rest ih =>
    rcases heq : splitOnDots rest with _ | ⟨s, ss⟩
    · exact absurd heq (splitOnDots_ne_nil rest)
    · rw [heq] at ih
      by_cases hc : c = '.'
      · subst hc
        simp only [splitOnDots, if_pos rfl, heq, joinDots]
        simpa using ih
      · simp only [splitOnDots, if_neg hc, heq]
        cases ss with
        | nil =>
          simp only [joinDots] at ih ⊢
          rw [ih]
        | cons s2 ss2 =>
          simp only [joinDots] at ih ⊢
          rw [List.cons_append, ih]

theorem ipv4SegVal_repr {seg : List Char} {v : Nat} (h : ipv4SegVal seg = some v) :
    (Nat.repr v).toList = seg := by
  have hv := List.find?_some h
  simpa using hv

theorem parseIPv4_shape {h : List Char} {a b c d : Nat}
    (hp : parseIPv4 h = some (a, b, c, d)) :
    h = (Nat.repr a).toList ++ '.' :: ((Nat.repr b).toList ++ '.' ::
      ((Nat.repr c).toList ++ '.' :: (Nat.repr d).toList)) := by
  unfold parseIPv4 at hp
  split at hp
  case _ s1 s2 s3 s4 heq =>
    simp only [Option.bind_eq_some, Option.map_eq_some'] at hp
    obtain ⟨a1, h1, b1, h2, c1, h3, d1, h4, htup⟩ := hp
    simp only [Prod.mk.injEq] at htup
    obtain ⟨rfl, rfl, rfl, rfl⟩ := htup
    have hjoin := joinDots_splitOnDots h
    rw [heq] at hjoin
    simp only [joinDots] at hjoin
    rw [ipv4SegVal_repr h1, ipv4SegVal_repr h2, ipv4SegVal_repr h3, ipv4SegVal_repr h4]
    exact hjoin.symm
  case _ => exact Option.noConfusion hp

theorem isPrefixOf_append_right (l t : List Char) : l.isPrefixOf (l ++ t) = true := by
  induction l with
  | nil => simp [List.isPrefixOf]
  | cons c cs ih => simp [List.isPrefixOf, ih]

theorem isPrefixOf_of_eq_append {pre h rest : List Char} (e : h = pre ++ rest) :
    pre.isPrefixOf h = true := e ▸ isPrefixOf_append_right pre rest

theorem matches172_of_shape (tail : List Char) (dstr : String) (hd : dstr ∈ seg172)
    {h : List Char} (e : h = ("172." ++ dstr ++ ".").toList ++ tail) :
    matches172 h = true := by
  unfold matches172
  simp only [List.any_eq_true]
  exact ⟨dstr, hd, isPrefixOf_of_eq_append e⟩

theorem isPrivateIP_of_ipv4 {h : List Char} (hp : ipv4PatternAny h = true) :
    isPrivateIP h = true := by
  unfold isPrivateIP
  split
  · rfl
  · simp [hp]

theorem isPrivateIP_of_ipv6 {h : List Char}
    (hp : stripBrackets h = "::1".toList ∨ stripBrackets h = "::".toList ∨
      ("fc".toList).isPrefixOf (stripBrackets h) = true ∨
      ("fd".toList).isPrefixOf (stripBrackets h) = true) :
    isPrivateIP h = true := by
  unfold isPrivateIP
  split
  · rfl
  · split
    · rfl
    · rcases hp with h1 | h1 | h1 | h1
      · simp [h1]
      · simp [h1]
      · rw [ List.isPrefixOf_iff_prefix] at h1
        simp only [Bool.or_eq_true, List.isPrefixOf_iff_prefix, decide_eq_true_eq]
        exact Or.inl (Or.inr h1)
      · rw [ List.isPrefixOf_iff_prefix] at h1
        simp only [Bool.or_eq_true, List.isPrefixOf_iff_prefix, decide_eq_true_eq]
        exact Or.inr h1

theorem isPrivateIP_of_spec {h : List Char} (hs : specPrivateHostname h = true) :
    isPrivateIP h = true := by
  unfold specPrivateHostname at hs
  simp only [Bool.or_eq_true, beq_iff_eq, or_assoc] at hs
  rcases hs with h1 | h2 | h3 | d1 | d2 | d3 | d4
  case _ => subst h1; decide
  case _ => subst h2; decide
  case _ =>
    rcases hq : parseIPv4 h with _ | ⟨a, b, c, d⟩
    · rw [hq] at h3; simp at h3
    · rw [hq] at h3
      have hshape := parseIPv4_shape hq
      apply isPrivateIP_of_ipv4
      unfold ipv4PatternAny
      simp only [inPrivateRange, Bool.or_eq_true, Bool.and_eq_true, beq_iff_eq,
        decide_eq_true_eq, or_assoc, and_assoc] at h3
      simp only [Bool.or_eq_true, or_assoc]
      rcases h3 with ha | ha | ⟨ha, hb1, hb2⟩ | ⟨ha, hb⟩ | ⟨ha, hb⟩
      · subst ha
        exact Or.inl (isPrefixOf_of_eq_append (by rw [hshape]; rfl))
      · subst ha
        exact Or.inr (Or.inl (isPrefixOf_of_eq_append (by rw [hshape]; rfl)))
      · subst ha
        refine Or.inr (Or.inr (Or.inl ?_))
        interval_cases b
        · exact matches172_of_shape _ "16" (by decide) (by rw [hshape]; rfl)
        · exact matches172_of_shape _ "17" (by decide) (by rw [hshape]; rfl)
        · exact matches172_of_shape _ "18" (by decide) (by rw [hshape]; rfl)
        · exact matches172_of_shape _ "19" (by decide) (by rw [hshape]; rfl)
        · exact matches172_of_shape _ "20" (by decide) (by rw [hshape]; rfl)
        · exact matches172_of_shape _ "21" (by decide) (by rw [hshape]; rfl)
        · exact matches172_of_shape _ "22" (by decide) (by rw [hshape]; rfl)
        · exact matches172_of_shape _ "23" (by decide) (by rw [hshape]; rfl)
        · exact matches172_of_shape _ "24" (by decide) (by rw [hshape]; rfl)
        · exact matches172_of_shape _ "25" (by decide) (by rw [hshape]; rfl)
        · exact matches172_of_shape _ "26" (by decide) (by rw [hshape]; rfl)
        · exact matches172_of_shape _ "27" (by decide) (by rw [hshape]; rfl)
        · exact matches172_of_shape _ "28" (by decide) (by rw [hshape]; rfl)
        · exact matches172_of_shape _ "29" (by decide) (by rw [hshape]; rfl)
        · exact matches172_of_shape _ "30" (by decide) (by rw [hshape]; rfl)
        · exact matches172_of_shape _ "31" (by decide) (by rw [hshape]; rfl)
      · subst ha; subst hb
        exact Or.inr (Or.inr (Or.inr (Or.inl
          (isPrefixOf_of_eq_append (by rw [hshape]; rfl)))))
      · subst ha; subst hb
        exact Or.inr (Or.inr (Or.inr (Or.inr
          (isPrefixOf_of_eq_append (by rw [hshape]; rfl)))))
  case _ => exact isPrivateIP_of_ipv6 (Or.inl d1)
  case _ => exact isPrivateIP_of_ipv6 (Or.inr (Or.inl d2))
  case _ => exact isPrivateIP_of_ipv6 (Or.inr (Or.inr (Or.inl d3)))
  case _ => exact isPrivateIP_of_ipv6 (Or.inr (Or.inr (Or.inr d4)))

theorem specPrivateHostname_ne_nil {h : List Char}
    (hs : specPrivateHostname h = true) : h ≠ [] := by
  intro he
  subst he
  exact absurd hs (by decide)

/-- Claim C2: for every hostname drawn from the documented
private/loopback/link-local ranges — the literals `localhost` and
`localhost.localdomain`, IPv4 addresses in `127.0.0.0/8`, `10.0.0.0/8`,
`172.16.0.0`–`172.31.255.255`, `192.168.0.0/16`, `169.254.0.0/16`, and IPv6
`::1`, `::`, and `fc`/`fd`-prefixed literals (with or without brackets) —
`validateURLForSSRF` on an http/https URL with that hostname returns
`valid = false` with reason exactly `Cannot scrape private/local URLs`. -/
theorem validate_rejects_documented_private_ranges
    (url proto h : List Char)
    (hu : jsTrim url ≠ [])
    (hp : proto = "http:".toList ∨ proto = "https:".toList)
    (hs : specPrivateHostname h = true) :
    validateURLForSSRF (.str url) (some ⟨proto, h⟩)
      = ⟨false, some "Cannot scrape private/local URLs".toList⟩ := by
  have hpriv := isPrivateIP_of_spec hs
  have hne := specPrivateHostname_ne_nil hs
  have hul : ¬ (url = [] ∨ jsTrim url = []) := by
    rintro (rfl | h1)
    · exact hu rfl
    · exact hu h1
  rcases hp with rfl | rfl <;> simp [validateURLForSSRF, hul, hne, hpriv]

/-- Witness for C2 at the concrete private URL `http://192.168.1.1`. -/
theorem validate_rejects_documented_private_ranges_witness :
    jsTrim "http://192.168.1.1".toList ≠ [] ∧
    specPrivateHostname "192.168.1.1".toList = true ∧
    validateURLForSSRF (.str "http://192.168.1.1".toList)
      (some ⟨"http:".toList, "192.168.1.1".toList⟩)
      = ⟨false, some "Cannot scrape private/local URLs".toList⟩ :=
  ⟨by decide, by decide,
   validate_rejects_documented_private_ranges _ _ _ (by decide) (Or.inl rfl) (by decide)⟩

/-- Claim C3 counterexample: the hostname `10.com` lies outside every
documented private/loopback/link-local range (it is a domain name, not an
IPv4 address), yet the validator rejects an http URL with that hostname,
because the IPv4 checks are textual prefix matches on the hostname string. -/
theorem validate_rejects_public_prefix_hostname :
    specPrivateHostname "10.com".toList = false ∧
    validateURLForSSRF (.str "http://10.com".toList)
      (some ⟨"http:".toList, "10.com".toList⟩)
      = ⟨false, some "Cannot scrape private/local URLs".toList⟩ :=
  ⟨by decide, by decide⟩

/-- Claim C3 (amended): every http/https URL whose hostname the code's
string-level test `isPrivateIP` classifies as public — i.e. outside the
documented ranges and additionally not textually beginning with one of the
private prefixes `127.`, `10.`, `172.16.`–`172.31.`, `192.168.`, `169.254.`
and not an `fc`/`fd`-prefixed or `::1`/`::` literal after bracket stripping —
is accepted: `valid = true` with no reason string. -/
theorem validate_accepts_nonprivate_hostnames
    (url proto h : List Char)
    (hu : jsTrim url ≠ [])
    (hp : proto = "http:".toList ∨ proto = "https:".toList)
    (hh : h ≠ [])
    (hpriv : isPrivateIP h = false) :
    validateURLForSSRF (.str url) (some ⟨proto, h⟩) = ⟨true, none⟩ := by
  have hul : ¬ (url = [] ∨ jsTrim url = []) := by
    rintro (rfl | h1)
    · exact hu rfl
    · exact hu h1
  rcases hp with rfl | rfl <;> simp [validateURLForSSRF, hul, hh, hpriv]

/-- Witness for amended C3 at `http://example.com`. -/
theorem validate_accepts_nonprivate_hostnames_witness :
    isPrivateIP "example.com".toList = false ∧
    validateURLForSSRF (.str "http://example.com".toList)
      (some ⟨"http:".toList, "example.com".toList⟩) = ⟨true, none⟩ :=
  ⟨by decide,
   validate_accepts_nonprivate_hostnames _ _ _ (by decide) (Or.inl rfl)
     (by decide) (by decide)⟩

/-- Claim C6: empty, whitespace-only, or non-string input is rejected with
reason exactly `URL cannot be empty`, for every possible parser outcome (the
URL parse is never consulted); any other input whose URL parse throws is
rejected with reason exactly `Invalid URL format`.  The validator is a pure
function of these inputs, and route-level short-circuiting (no network
effects on rejection) is established on `importRoute`. -/
theorem validate_empty_and_unparsable :
    (∀ parsed?, validateURLForSSRF .notStr parsed?
        = ⟨false, some "URL cannot be empty".toList⟩) ∧
    (∀ (s : List Char) parsed?, jsTrim s = [] →
      validateURLForSSRF (.str s) parsed?
        = ⟨false, some "URL cannot be empty".toList⟩) ∧
    (∀ (s : List Char), jsTrim s ≠ [] →
      validateURLForSSRF (.str s) none
        = ⟨false, some "Invalid URL format".toList⟩) := by
  refine ⟨fun _ => rfl, ?_, ?_⟩
  · intro s p hts
    simp [validateURLForSSRF, hts]
  · intro s hts
    have hul : ¬ (s = [] ∨ jsTrim s = []) := by
      rintro (rfl | h1)
      · exact hts rfl
      · exact hts h1
    simp [validateURLForSSRF, hul]

/-- Witness for C6: a whitespace-only URL (with an arbitrary parser outcome
supplied, showing the parse is irrelevant) and an unparsable URL. -/
theorem validate_empty_and_unparsable_witness :
    validateURLForSSRF (.str "   ".toList)
        (some ⟨"http:".toList, "example.com".toList⟩)
      = ⟨false, some "URL cannot be empty".toList⟩ ∧
    validateURLForSSRF (.str "not a url at all".toList) none
      = ⟨false, some "Invalid URL format".toList⟩ :=
  ⟨validate_empty_and_unparsable.2.1 _ _ (by decide),
   validate_empty_and_unparsable.2.2 _ (by decide)⟩

/-- Claim C9: the validator result is always well-formed — the embedding is a
total function of its inputs, the error field is `none` exactly when
`valid = true`, and every invalid result carries exactly one of the five
documented error strings. -/
theorem validate_wellformed (input : JSInput) (parsed? : Option ParsedURL) :
    ((validateURLForSSRF input parsed?).valid = true ↔
      (validateURLForSSRF input parsed?).error = none) ∧
    ((validateURLForSSRF input parsed?).valid = false →
      (validateURLForSSRF input parsed?).error ∈ validatorErrors.map some) := by
  cases input with
  | notStr => simp [validateURLForSSRF, validatorErrors]
  | str s =>
    cases parsed? with
    | none =>
      simp only [validateURLForSSRF]
      split_ifs <;> simp [validatorErrors]
    | some parsed =>
      simp only [validateURLForSSRF]
      split_ifs <;> simp [validatorErrors]

/-- Witness for C9 at a rejected input. -/
theorem validate_wellformed_witness :
    (validateURLForSSRF .notStr none).valid = false ∧
    (validateURLForSSRF .notStr none).error ∈ validatorErrors.map some :=
  ⟨by decide, (validate_wellformed .notStr none).2 (by decide)⟩

example : validateURLForSSRF (.str "http://127.0.0.1:8000".toList)
    (some ⟨"http:".toList, "127.0.0.1".toList⟩)
    = ⟨false, some "Cannot scrape private/local URLs".toList⟩ := by decide

example : validateURLForSSRF (.str "https://example.com:8443/path".toList)
    (some ⟨"https:".toList, "example.com".toList⟩) = ⟨true, none⟩ := by decide

example : isPrivateIP "172.20.5.10".toList = true := by decide

example : isPrivateIP "172.32.0.1".toList = false := by decide

example : isPrivateIP "[::1]".toList = true := by decide

example : extractSteepTimes "10s 15s 20s 9999s".toList = [10, 15, 20] := by decide

example : extractSteepTimes "10s 15s".toList = [] := by decide

example : extractSteepTimes "steep 30s then 45s then 60s done".toList = [30, 45, 60] := by decide

example : extractSteepTimes "0s 1s 2s".toList = [0, 1, 2] := by decide

example : scanSteepMatches "a12x34s".toList = ["34s".toList] := by decide

example : extractType
    [⟨"Categories".toList, "Categories: Green Tea, Oolong Tea".toList⟩]
    [] [] = "Oolong".toList := by decide

example : extractType [] "this Green tea".toList "Green Dragon".toList
    = "Green".toList := by decide

example : extractType [] "this Green tea".toList "Black Dragon".toList = [] := by decide

theorem foldl_overwrite_getLast (p : List Char → Bool) (ts : List (List Char)) :
    ∀ init, ts.foldl (fun acc t => if p t then t else acc) init
      = ((ts.filter p).getLast?).getD init := by
  induction ts with
  | nil => intro init; rfl
  | cons t ts ih =>
    intro init
    simp only [List.foldl_cons, List.filter_cons]
    by_cases hp : p t = true
    · rw [if_pos hp, if_pos hp, ih t]
      rcases hfl : ts.filter p with _ | ⟨x, xs⟩
      · simp
      · rw [List.getLast?_cons_cons]
        cases hxx : (x :: xs).getLast? with
        | none => exact absurd hxx (by simp)
        | some y => simp [hxx]
    · rw [if_neg hp, if_neg hp, ih init]

theorem mem_validTypes_ne_nil {t : List Char} (ht : t ∈ validTypes) : t ≠ [] := by
  fin_cases ht <;> decide

/-- Claim C10: when the Categories info-block text contains more than one
enumerated type name, the extracted type is the one occurring last in the
fixed source order Green, Black, PuEr, Yellow, White, Oolong; the body-text
fallback runs only when the Categories scan produced no type — it then picks
the first type in that order occurring in both the body text and the already
extracted name — and when the scan did produce a type the result is
independent of the body text and the name. -/
theorem extractType_last_match_and_fallback :
    (∀ (title container body name : List Char),
      jsIncludes title "Categories".toList = true →
      1 < (validTypes.filter fun t => jsIncludes container t).length →
      extractType [⟨title, container⟩] body name
        = ((validTypes.filter fun t => jsIncludes container t).getLast?).getD []) ∧
    (∀ (infoTitles : List InfoTitle) (body name : List Char),
      categoriesScan infoTitles = [] →
      extractType infoTitles body name
        = ((validTypes.find? fun t => jsIncludes body t && jsIncludes name t).getD [])) ∧
    (∀ (infoTitles : List InfoTitle) (body body2 name name2 : List Char),
      categoriesScan infoTitles ≠ [] →
      extractType infoTitles body name = extractType infoTitles body2 name2) := by
  refine ⟨?_, ?_, ?_⟩
  · intro title container body name hcat hlen
    have hscan : categoriesScan [⟨title, container⟩]
        = ((validTypes.filter fun t => jsIncludes container t).getLast?).getD [] := by
      simp only [categoriesScan, List.foldl_cons, List.foldl_nil, hcat, if_pos,
        catScanStep]
      exact foldl_overwrite_getLast _ _ []
    rcases hfl : (validTypes.filter fun t => jsIncludes container t) with _ | ⟨x, xs⟩
    · rw [hfl] at hlen
      simp at hlen
    · have hy : ∃ y, (x :: xs).getLast? = some y := by
        cases hxx : (x :: xs).getLast? with
        | none => exact absurd hxx (by simp)
        | some y => exact ⟨y, rfl⟩
      obtain ⟨y, hy⟩ := hy
      have hymem : y ∈ validTypes := by
        have hmem : y ∈ x :: xs := List.mem_of_mem_getLast? hy
        rw [← hfl] at hmem
        exact (List.mem_filter.mp hmem).1
      have hne := mem_validTypes_ne_nil hymem
      simp only [extractType]
      rw [hscan, hfl, hy]
      simp [hne]
  · intro infoTitles body name hscan
    simp only [extractType]
    rw [hscan, if_pos rfl]
    cases hf : validTypes.find? fun t => jsIncludes body t && jsIncludes name t with
    | none => simp [typeFallback, hf]
    | some t => simp [typeFallback, hf]
  · intro infoTitles body body2 name name2 hscan
    simp only [extractType]
    rw [if_neg hscan, if_neg hscan]

/-- Witness for C10: a Categories block containing both Green and Oolong
yields Oolong (the later in the fixed order), and with no Categories block
the fallback picks the first type co-occurring in body text and name. -/
theorem extractType_last_match_and_fallback_witness :
    extractType [⟨"Categories".toList, "Categories: Green Tea, Oolong Tea".toList⟩]
      "irrelevant".toList "irrelevant".toList = "Oolong".toList ∧
    extractType [] "fine Green tea".toList "Green Dragon".toList = "Green".toList := by
  constructor
  · rw [extractType_last_match_and_fallback.1 _ _ _ _ (by decide) (by decide)]
    decide
  · rw [extractType_last_match_and_fallback.2.1 _ _ _ (by decide)]
    decide

/-- Claim C4 counterexample: the body text `0s 1s 2s` yields the steep-times
entry 0, which is not strictly between 0 and 600 — the source checks only
`num < 600`, and `/(\d+)s/` also matches `0s`. -/
theorem extractSteepTimes_zero_entry :
    0 ∈ extractSteepTimes "0s 1s 2s".toList ∧ ¬ (0 < (0 : Nat)) :=
  ⟨by decide, by decide⟩

/-- Claim C4 (amended): every steep-times entry the extractor returns is an
integer in the interval [0, 600): nonnegative (entries are parsed from digit
runs, and 0 can occur) and strictly below 600. -/
theorem extractSteepTimes_bounded (text : List Char) (n : Nat)
    (hn : n ∈ extractSteepTimes text) : n < 600 := by
  simp only [extractSteepTimes] at hn
  split at hn
  · exact of_decide_eq_true (List.mem_filter.mp hn).2
  · exact absurd hn (List.not_mem_nil n)

/-- Witness for amended C4. -/
theorem extractSteepTimes_bounded_witness :
    10 ∈ extractSteepTimes "10s 15s 20s".toList ∧ 10 < 600 :=
  ⟨by decide, extractSteepTimes_bounded ("10s 15s 20s".toList) 10 (by decide)⟩

/-- Claim C5: with fewer than three number-plus-seconds tokens in the text,
extraction returns the empty sequence; and on the tokens 10s, 15s, 20s,
9999s it parses each token to an integer, drops the out-of-range 9999 and
preserves order, returning exactly [10, 15, 20]. -/
theorem extractSteepTimes_threshold_and_order :
    (∀ text, (scanSteepMatches text).length < 3 → extractSteepTimes text = []) ∧
    extractSteepTimes "10s 15s 20s 9999s".toList = [10, 15, 20] := by
  constructor
  · intro text hlen
    simp only [extractSteepTimes]
    rw [if_neg (by omega)]
  · decide

/-- Witness for C5 at a two-token text. -/
theorem extractSteepTimes_threshold_witness :
    (scanSteepMatches "10s 20s".toList).length < 3 ∧
    extractSteepTimes "10s 20s".toList = [] :=
  ⟨by decide, extractSteepTimes_threshold_and_order.1 _ (by decide)⟩

/-- Claim C8: the shared browser session self-recovers — after a disconnect
the stored handle is discarded, so the next acquisition launches afresh and
succeeds once launching works; a launch failure leaves the shared state
unset; and any number of back-to-back launch failures (each failing only its
own request) still ends in a successful acquisition as soon as the process
becomes launchable again. -/
theorem browser_session_recovers :
    (∀ (st : Option Nat) (b : Nat),
      getBrowser (browserDisconnected st) (.launched b) = (some b, some b)) ∧
    getBrowser none .launchFailed = (none, none) ∧
    (∀ (n b : Nat),
      runAcquires none (List.replicate n .launchFailed ++ [.launched b])
        = (some b, List.replicate n none ++ [some b])) := by
  refine ⟨fun st b => rfl, rfl, ?_⟩
  intro n b
  induction n with
  | zero => rfl
  | succ k ih => simp [runAcquires, getBrowser, List.replicate_succ, ih]

theorem importRoute_rejected (url : JSInput) (parsed? : Option ParsedURL)
    (st : Option Nat) (launch : LaunchOutcome) (npo nto : Bool) (doc : PageDoc)
    (r : List Char) (hv : validateURLForSSRF url parsed? = ⟨false, some r⟩) :
    importRoute url parsed? st launch npo nto doc = (st, .clientError r, []) := by
  simp [importRoute, hv]

/-- Claim C1: for every URL the guard rejects, the import operation fails
immediately with the guard's rejection reason, leaving the shared browser
state untouched and performing no network action; in particular an import of
`http://127.0.0.1/x` fails with reason `Cannot scrape private/local URLs`
with zero network effects, before any browser acquisition or navigation. -/
theorem import_guard_short_circuits :
    (∀ (url : JSInput) (parsed? : Option ParsedURL) (st : Option Nat)
      (launch : LaunchOutcome) (npo nto : Bool) (doc : PageDoc) (r : List Char),
      validateURLForSSRF url parsed? = ⟨false, some r⟩ →
      importRoute url parsed? st launch npo nto doc = (st, .clientError r, [])) ∧
    (∀ (st : Option Nat) (launch : LaunchOutcome) (npo nto : Bool) (doc : PageDoc),
      importRoute (.str "http://127.0.0.1/x".toList)
          (some ⟨"http:".toList, "127.0.0.1".toList⟩) st launch npo nto doc
        = (st, .clientError "Cannot scrape private/local URLs".toList, [])) :=
  ⟨importRoute_rejected,
   fun st launch npo nto doc =>
     importRoute_rejected _ _ st launch npo nto doc _ (by decide)⟩

/-- Witness for C1 at a rejected non-string input. -/
theorem import_guard_short_circuits_witness :
    importRoute .notStr none none .launchFailed true true
        ⟨none, none, none, none, [], []⟩
      = (none, .clientError "URL cannot be empty".toList, []) :=
  import_guard_short_circuits.1 _ _ _ _ _ _ _ _ (by decide)

/-- Claim C7: a navigation timeout during fetch is not an error — whenever
the guard accepted the URL and a page context was created, the route returns
the candidate extracted from whatever document state was reached, and the
outcome with a timed-out navigation is identical to the outcome without. -/
theorem import_navigation_timeout_not_fatal
    (url : JSInput) (parsed? : Option ParsedURL) (st : Option Nat)
    (launch : LaunchOutcome) (doc : PageDoc) (b : Nat)
    (hv : (validateURLForSSRF url parsed?).valid = true)
    (hb : (getBrowser st launch).2 = some b) :
    importRoute url parsed? st launch true true doc
      = ((getBrowser st launch).1, .ok (extractTeaData doc),
         [.launchAttempt, .navigate]) ∧
    importRoute url parsed? st launch true true doc
      = importRoute url parsed? st launch true false doc := by
  rcases hgb : getBrowser st launch with ⟨st2, r2⟩
  rw [hgb] at hb
  have hb2 : r2 = some b := hb
  subst hb2
  constructor
  · simp [importRoute, hv, hgb, scrapePage]
  · simp [importRoute, hv, hgb, scrapePage]

/-- Witness for C7: an accepted URL, an already-running browser, and a
navigation timeout still produce an extracted candidate. -/
theorem import_navigation_timeout_not_fatal_witness :
    importRoute (.str "http://example.com".toList)
        (some ⟨"http:".toList, "example.com".toList⟩) (some 1) .launchFailed
        true true ⟨none, none, none, none, [], []⟩
      = (some 1, .ok (extractTeaData ⟨none, none, none, none, [], []⟩),
         [.launchAttempt, .navigate]) :=
  (import_navigation_timeout_not_fatal _ _ _ _ _ 1 (by decide) (by decide)).1

